import Mathlib

/-!
Shallow embedding of the SoroTask contract (src/contract/src/lib.rs):
a conditional task-execution engine for Soroban.  Addresses and symbols
are modelled as `Nat` and `String`; host values (`Val`) as a small tagged
variant type with a nested-sequence constructor, which is needed to model
the packing of the task's `args` vector into a single `Val` at the
resolver call boundary.  Persistent storage is a map from task ids to
`TaskConfig` records.  The two external call capabilities (the resolver's
best-effort `try_invoke_contract` and the strict `invoke_contract` on the
target) and the ledger clock are passed in as an explicit environment.
`execute` returns the outcome, the post-transaction store (Soroban
transactions are atomic, so an aborted attempt leaves the pre-state), and
a trace of the external calls it made.
-/

namespace SoroTask

/-- Host value: a tagged variant, including a nested sequence, mirroring
the untyped `Val` payload of the source. -/
inductive Val where
  | int (n : Int)
  | sym (s : String)
  | boolean (b : Bool)
  | vec (vs : List Val)

/-- `TaskConfig` record as stored by the contract (lib.rs lines 6-15). -/
structure TaskConfig where
  creator : Nat
  target : Nat
  function : String
  args : List Val
  resolver : Option Nat
  interval : Nat
  last_run : Nat
  gas_balance : Int

/-- Persistent storage: task id to stored record, `none` when absent. -/
abbrev Store : Type := Nat → Option TaskConfig

/-- `env.storage().persistent().set(&DataKey::Task(id), &config)`. -/
def Store.set (s : Store) (task_id : Nat) (config : TaskConfig) : Store :=
  fun j => if j = task_id then some config else s j

/-- Outcome of the best-effort resolver call (`try_invoke_contract`):
either the call completed and converted to a boolean, or it failed for
some reason (contract not found, panic, non-boolean return, trap). -/
inductive ResolverOutcome where
  | ok (b : Bool)
  | failed

/-- External collaborators of the contract: the resolver call capability,
the strict target invocation (true means it returned without panicking),
and the ledger clock. -/
structure ExtEnv where
  resolverCall : Nat → List Val → ResolverOutcome
  invokeOk : Nat → String → List Val → Bool
  timestamp : Nat

/-- Errors with which an `execute` transaction aborts. -/
inductive ExecError where
  | taskNotFound
  | invocationFailure

/-- Trace of external calls made during one `execute` attempt. -/
inductive CallEvent where
  | resolverCheck (addr : Nat) (function : String) (callArgs : List Val)
  | invoke (target : Nat) (function : String) (args : List Val)

/-- Result of one `execute` attempt: outcome seen by the caller, the
store after the (atomic) transaction, and the external calls made. -/
structure ExecResult where
  outcome : Except ExecError Unit
  store : Store
  events : List CallEvent

/-- `register` (lib.rs lines 31-33): unconditional persistent write. -/
def register (s : Store) (task_id : Nat) (config : TaskConfig) : Store :=
  Store.set s task_id config

/-- `get_task` (lib.rs lines 35-37): read-only lookup. -/
def get_task (s : Store) (task_id : Nat) : Option TaskConfig :=
  s task_id

/-- `monitor` (lib.rs lines 39-41): a no-op body. -/
def monitor (s : Store) : Store :=
  s

/-- The argument vector passed to the resolver: the task's `args` packed
into a one-element outer vector (lib.rs lines 82-83). -/
def resolverCallArgs (config : TaskConfig) : List Val :=
  [Val.vec config.args]

/-- The `should_execute` computation of `execute` (lib.rs lines 80-94):
no resolver means proceed; a present resolver is called best-effort and
only `Ok(Ok(true))` yields proceed. -/
def gateDecision (env : ExtEnv) (config : TaskConfig) : Bool :=
  match config.resolver with
  | some resolver_address =>
      match env.resolverCall resolver_address (resolverCallArgs config) with
      | ResolverOutcome.ok true => true
      | _ => false
  | none => true

/-- The external calls the gate makes: exactly one `check_condition` call
when a resolver is present, none otherwise. -/
def gateTrace (config : TaskConfig) : List CallEvent :=
  match config.resolver with
  | some resolver_address =>
      [CallEvent.resolverCheck resolver_address "check_condition"
        (resolverCallArgs config)]
  | none => []

/-- `execute` (lib.rs lines 62-108): load the task (abort if absent), run
the resolver gate, and when it proceeds invoke the target strictly; only
on a successful invocation set `last_run` to the ledger timestamp and
persist the updated record.  A panicking invocation aborts the whole
atomic transaction, so the store is the pre-state in that case. -/
def execute (env : ExtEnv) (s : Store) (task_id : Nat) : ExecResult :=
  match s task_id with
  | none =>
      { outcome := Except.error ExecError.taskNotFound, store := s, events := [] }
  | some config =>
      if gateDecision env config then
        if env.invokeOk config.target config.function config.args then
          { outcome := Except.ok ()
            store := Store.set s task_id { config with last_run := env.timestamp }
            events := gateTrace config
              ++ [CallEvent.invoke config.target config.function config.args] }
        else
          { outcome := Except.error ExecError.invocationFailure
            store := s
            events := gateTrace config
              ++ [CallEvent.invoke config.target config.function config.args] }
      else
        { outcome := Except.ok (), store := s, events := gateTrace config }

/-- Whether a trace entry is a strict target invocation. -/
def CallEvent.isInvoke : CallEvent → Bool
  | CallEvent.invoke _ _ _ => true
  | _ => false

/-- Whether a trace entry is a resolver condition check. -/
def CallEvent.isResolverCheck : CallEvent → Bool
  | CallEvent.resolverCheck _ _ _ => true
  | _ => false

/-- An attempt reaches the Invoke step exactly when its trace holds a
target invocation. -/
def reachesInvoke (r : ExecResult) : Bool :=
  r.events.any CallEvent.isInvoke

/-- The exposed operations, for reasoning about operation sequences. -/
inductive Op where
  | register (task_id : Nat) (config : TaskConfig)
  | get_task (task_id : Nat)
  | execute (env : ExtEnv) (task_id : Nat)
  | monitor

/-- Effect of one exposed operation on the store (`get_task` reads only;
an `execute` leaves the post-transaction store, which is the pre-state
when the attempt aborts). -/
def applyOp (s : Store) : Op → Store
  | Op.register task_id config => register s task_id config
  | Op.get_task _ => s
  | Op.execute env task_id => (execute env s task_id).store
  | Op.monitor => monitor s

/-- Effect of a sequence of exposed operations, first to last. -/
def applyOps (s : Store) : List Op → Store
  | [] => s
  | op :: rest => applyOps (applyOp s op) rest

/-- Whether an operation is a `register`. -/
def Op.isRegister : Op → Bool
  | Op.register _ _ => true
  | _ => false

/-- The spec's monotonic-clock assumption, per operation: an `execute`
is supplied a ledger timestamp no smaller than the current `last_run` of
the task it targets.  Other operations carry no clock. -/
def clockOk (s : Store) : Op → Prop
  | Op.execute env task_id => ∀ c, s task_id = some c → c.last_run ≤ env.timestamp
  | _ => True

/-- Concrete record with a resolver at address 9, for witnesses. -/
def cfgResolver : TaskConfig :=
  { creator := 1, target := 2, function := "work", args := [Val.int 3],
    resolver := some 9, interval := 60, last_run := 0, gas_balance := 0 }

/-- Concrete record with no resolver, for witnesses. -/
def cfgPlain : TaskConfig :=
  { cfgResolver with resolver := none }

/-- Concrete record with `last_run = 5`, for witnesses. -/
def cfgHigh : TaskConfig :=
  { cfgPlain with last_run := 5 }

/-- Concrete record with `last_run = 3`, for witnesses. -/
def cfgLow : TaskConfig :=
  { cfgPlain with last_run := 3 }

/-- Store holding the resolver-gated record at id 7, for witnesses. -/
def store1 : Store :=
  fun j => if j = 7 then some cfgResolver else none

/-- Store holding the gate-free record at id 7, for witnesses. -/
def store2 : Store :=
  fun j => if j = 7 then some cfgPlain else none

/-- Environment whose resolver answers `false` and whose target
invocation succeeds, at ledger time 100. -/
def envFalse : ExtEnv :=
  { resolverCall := fun _ _ => ResolverOutcome.ok false,
    invokeOk := fun _ _ _ => true, timestamp := 100 }

/-- Environment whose resolver answers `true` and whose target
invocation succeeds, at ledger time 100. -/
def envTrue : ExtEnv :=
  { resolverCall := fun _ _ => ResolverOutcome.ok true,
    invokeOk := fun _ _ _ => true, timestamp := 100 }

/-- Environment whose resolver answers `true` but whose target
invocation panics, at ledger time 100. -/
def envInvokeFail : ExtEnv :=
  { resolverCall := fun _ _ => ResolverOutcome.ok true,
    invokeOk := fun _ _ _ => false, timestamp := 100 }

/-- Helper: `execute` never writes any key other than `task_id`. -/
theorem execute_store_frame (env : ExtEnv) (s : Store) (task_id j : Nat)
    (hj : j ≠ task_id) : (execute env s task_id).store j = s j := by
  cases hget : s task_id with
  | none => simp [execute, hget]
  | some config =>
      cases hgate : gateDecision env config with
      | false => simp [execute, hget, hgate]
      | true =>
          cases hinv : env.invokeOk config.target config.function config.args <;>
            simp [execute, hget, hgate, hinv, Store.set, hj]

/-- Helper: the stored record at `task_id` after `execute` is the commit
of `last_run` when the gate passes and the invocation succeeds, and the
unchanged record otherwise. -/
theorem execute_store_at (env : ExtEnv) (s : Store) (task_id : Nat)
    (config : TaskConfig) (hget : s task_id = some config) :
    (execute env s task_id).store task_id =
      some (if gateDecision env config
              && env.invokeOk config.target config.function config.args
            then { config with last_run := env.timestamp } else config) := by
  cases hgate : gateDecision env config with
  | false => simp [execute, hget, hgate]
  | true =>
      cases hinv : env.invokeOk config.target config.function config.args <;>
        simp [execute, hget, hgate, hinv, Store.set]

/-- Helper: a single exposed operation other than `register`, run under
the monotonic-clock assumption, keeps every present record present and
never decreases its `last_run`. -/
theorem applyOp_last_run_mono (s : Store) (op : Op) (i : Nat) (c : TaskConfig)
    (hreg : op.isRegister = false) (hclock : clockOk s op) (hget : s i = some c) :
    ∃ c', applyOp s op i = some c' ∧ c.last_run ≤ c'.last_run := by
  cases op with
  | register j cfg => simp [Op.isRegister] at hreg
  | get_task j => exact ⟨c, hget, Nat.le_refl _⟩
  | monitor => exact ⟨c, hget, Nat.le_refl _⟩
  | execute env j =>
      by_cases hij : i = j
      · subst hij
        have hts : c.last_run ≤ env.timestamp := hclock c hget
        have hst := execute_store_at env s i c hget
        cases hb : (gateDecision env c
            && env.invokeOk c.target c.function c.args) with
        | true =>
            rw [hb] at hst
            simp at hst
            exact ⟨{ c with last_run := env.timestamp }, hst, hts⟩
        | false =>
            rw [hb] at hst
            simp at hst
            exact ⟨c, hst, Nat.le_refl _⟩
      · exact ⟨c, (execute_store_frame env s j i hij).trans hget, Nat.le_refl _⟩

/-- Helper: over any sequence of exposed operations containing no
`register`, with each `execute` supplied a timestamp no smaller than the
targeted record's current `last_run`, `last_run` never decreases. -/
theorem applyOps_last_run_mono (ops : List Op) :
    ∀ (s : Store) (i : Nat) (c c' : TaskConfig),
      (∀ op ∈ ops, op.isRegister = false) →
      (∀ k (h : k < ops.length), clockOk (applyOps s (List.take k ops)) (ops.get ⟨k, h⟩)) →
      s i = some c → applyOps s ops i = some c' → c.last_run ≤ c'.last_run := by
  induction ops with
  | nil =>
      intro s i c c' _ _ hget hget'
      have h2 : some c = some c' := hget ▸ hget'
      injection h2 with h3
      exact h3 ▸ Nat.le_refl _
  | cons op rest ih =>
      intro s i c c' hnoreg hclock hget hget'
      obtain ⟨c₁, h₁, hle₁⟩ :=
        applyOp_last_run_mono s op i c (hnoreg op (List.mem_cons_self op rest))
          (hclock 0 (Nat.succ_pos _)) hget
      exact Nat.le_trans hle₁
        (ih (applyOp s op) i c₁ c'
          (fun o ho => hnoreg o (List.mem_cons_of_mem _ ho))
          (fun k h => hclock (k + 1) (Nat.succ_lt_succ h))
          h₁ hget')

/-- C1: when the resolver is present, `execute` reaches the invoke step
if and only if the resolver call completes and returns boolean `true`;
when the call returns `false` or fails for any reason, the invoke step
is skipped, no storage write happens (so `last_run` is unchanged), and
the caller sees no error. -/
theorem execute_resolver_gate (env : ExtEnv) (s : Store) (task_id : Nat)
    (config : TaskConfig) (ra : Nat)
    (hget : s task_id = some config) (hres : config.resolver = some ra) :
    (reachesInvoke (execute env s task_id) = true ↔
      env.resolverCall ra (resolverCallArgs config) = ResolverOutcome.ok true) ∧
    (env.resolverCall ra (resolverCallArgs config) ≠ ResolverOutcome.ok true →
      (execute env s task_id).store = s ∧
      (execute env s task_id).outcome = Except.ok ()) := by
  have hgate : gateDecision env config = true ↔
      env.resolverCall ra (resolverCallArgs config) = ResolverOutcome.ok true := by
    unfold gateDecision
    rw [hres]
    cases hcall : env.resolverCall ra (resolverCallArgs config) with
    | ok b => cases b <;> simp [hcall]
    | failed => simp [hcall]
  by_cases hc : env.resolverCall ra (resolverCallArgs config) = ResolverOutcome.ok true
  · have hg : gateDecision env config = true := hgate.mpr hc
    refine ⟨⟨fun _ => hc, fun _ => ?_⟩, fun hne => absurd hc hne⟩
    cases hinv : env.invokeOk config.target config.function config.args <;>
      simp [reachesInvoke, execute, hget, hg, hinv, CallEvent.isInvoke]
  · have hg : gateDecision env config = false := by
      cases hgb : gateDecision env config with
      | false => rfl
      | true => exact absurd (hgate.mp hgb) hc
    refine ⟨⟨fun hreach => ?_, fun h => absurd h hc⟩,
      fun _ => ⟨by simp [execute, hget, hg], by simp [execute, hget, hg]⟩⟩
    exfalso
    simp [reachesInvoke, execute, hget, hg, gateTrace, hres,
      CallEvent.isInvoke] at hreach

/-- C1 witness: resolver present at id 7, resolver answers `false`. -/
theorem execute_resolver_gate_witness :
    (store1 7 = some cfgResolver ∧ cfgResolver.resolver = some 9) ∧
    ((reachesInvoke (execute envFalse store1 7) = true ↔
        envFalse.resolverCall 9 (resolverCallArgs cfgResolver) = ResolverOutcome.ok true) ∧
      (envFalse.resolverCall 9 (resolverCallArgs cfgResolver) ≠ ResolverOutcome.ok true →
        (execute envFalse store1 7).store = store1 ∧
        (execute envFalse store1 7).outcome = Except.ok ())) :=
  ⟨⟨rfl, rfl⟩, execute_resolver_gate envFalse store1 7 cfgResolver 9 rfl rfl⟩

/-- C2: when the gate passes but the target invocation fails, the whole
attempt aborts: the post-transaction store is the pre-state (so the
stored record, `last_run` included, is unchanged) and the caller sees
the invocation failure. -/
theorem execute_invoke_failure_aborts (env : ExtEnv) (s : Store) (task_id : Nat)
    (config : TaskConfig) (hget : s task_id = some config)
    (hgate : gateDecision env config = true)
    (hfail : env.invokeOk config.target config.function config.args = false) :
    (execute env s task_id).store = s ∧
    (execute env s task_id).outcome = Except.error ExecError.invocationFailure := by
  constructor <;> simp [execute, hget, hgate, hfail]

/-- C2 witness: gate-free task at id 7, target invocation panics. -/
theorem execute_invoke_failure_aborts_witness :
    (store2 7 = some cfgPlain ∧ gateDecision envInvokeFail cfgPlain = true ∧
      envInvokeFail.invokeOk cfgPlain.target cfgPlain.function cfgPlain.args = false) ∧
    ((execute envInvokeFail store2 7).store = store2 ∧
      (execute envInvokeFail store2 7).outcome = Except.error ExecError.invocationFailure) :=
  ⟨⟨rfl, rfl, rfl⟩, execute_invoke_failure_aborts envInvokeFail store2 7 cfgPlain rfl rfl rfl⟩

/-- C3: when the gate passes and the target invocation succeeds, the
stored record at `task_id` afterward is the old record with `last_run`
set to the ledger timestamp, every other field unchanged; no other key
is written; and the caller sees no error. -/
theorem execute_commit_updates_only_last_run (env : ExtEnv) (s : Store)
    (task_id : Nat) (config : TaskConfig) (hget : s task_id = some config)
    (hgate : gateDecision env config = true)
    (hok : env.invokeOk config.target config.function config.args = true) :
    (execute env s task_id).store task_id =
      some { config with last_run := env.timestamp } ∧
    (∀ c', (execute env s task_id).store task_id = some c' →
      c'.last_run = env.timestamp ∧ c'.creator = config.creator ∧
      c'.target = config.target ∧ c'.function = config.function ∧
      c'.args = config.args ∧ c'.resolver = config.resolver ∧
      c'.interval = config.interval ∧ c'.gas_balance = config.gas_balance) ∧
    (∀ j, j ≠ task_id → (execute env s task_id).store j = s j) ∧
    (execute env s task_id).outcome = Except.ok () := by
  have hst : (execute env s task_id).store task_id =
      some { config with last_run := env.timestamp } := by
    simp [execute, hget, hgate, hok, Store.set]
  refine ⟨hst, ?_, fun j hj => execute_store_frame env s task_id j hj, ?_⟩
  · intro c' hc'
    rw [hst] at hc'
    injection hc' with h
    subst h
    exact ⟨rfl, rfl, rfl, rfl, rfl, rfl, rfl, rfl⟩
  · simp [execute, hget, hgate, hok]

/-- C3 witness: gate-free task at id 7, invocation succeeds at time 100. -/
theorem execute_commit_updates_only_last_run_witness :
    (store2 7 = some cfgPlain ∧ gateDecision envTrue cfgPlain = true ∧
      envTrue.invokeOk cfgPlain.target cfgPlain.function cfgPlain.args = true) ∧
    (execute envTrue store2 7).store 7 =
      some { cfgPlain with last_run := envTrue.timestamp } :=
  ⟨⟨rfl, rfl, rfl⟩,
    (execute_commit_updates_only_last_run envTrue store2 7 cfgPlain rfl rfl rfl).1⟩

/-- C4 counterexample: a sequence of exposed operations (two `register`
calls on id 7) under which the stored record's `last_run` strictly
decreases, from 5 to 3 — `register` is an unconditional upsert and can
lower `last_run`. -/
theorem last_run_decreases_under_register :
    (applyOps (fun _ => none) [Op.register 7 cfgHigh]) 7 = some cfgHigh ∧
    (applyOps (fun _ => none) [Op.register 7 cfgHigh, Op.register 7 cfgLow]) 7 =
      some cfgLow ∧
    cfgLow.last_run < cfgHigh.last_run :=
  ⟨rfl, rfl, by decide⟩

/-- C4 amended: over any sequence of the exposed operations that contains
no `register`, with every `execute` supplied a ledger timestamp no
smaller than the targeted record's current `last_run` (the spec's
monotonic-clock assumption), `last_run` is monotonically non-decreasing;
and in a single `execute` on a present record, the stored record is
updated — `last_run` set to the timestamp — exactly when the gate passes
and the invoke step completes without failure, and is unchanged
otherwise. -/
theorem last_run_monotone_without_register :
    (∀ (ops : List Op) (s : Store) (i : Nat) (c c' : TaskConfig),
      (∀ op ∈ ops, op.isRegister = false) →
      (∀ k (h : k < ops.length), clockOk (applyOps s (List.take k ops)) (ops.get ⟨k, h⟩)) →
      s i = some c → applyOps s ops i = some c' → c.last_run ≤ c'.last_run) ∧
    (∀ (env : ExtEnv) (s : Store) (i : Nat) (c : TaskConfig), s i = some c →
      (execute env s i).store i =
        some (if gateDecision env c && env.invokeOk c.target c.function c.args
              then { c with last_run := env.timestamp } else c)) :=
  ⟨fun ops s i c c' => applyOps_last_run_mono ops s i c c',
   fun env s i c hget => execute_store_at env s i c hget⟩

/-- C4 amended witness: one gate-free `execute` at time 100 on a record
with `last_run = 0`: `last_run` went from 0 to 100, non-decreasing. -/
theorem last_run_monotone_without_register_witness :
    (store2 7 = some cfgPlain ∧
      applyOps store2 [Op.execute envTrue 7] 7 =
        some { cfgPlain with last_run := 100 } ∧
      cfgPlain.last_run ≤ ({ cfgPlain with last_run := 100 } : TaskConfig).last_run) ∧
    (execute envTrue store2 7).store 7 =
      some (if gateDecision envTrue cfgPlain
              && envTrue.invokeOk cfgPlain.target cfgPlain.function cfgPlain.args
            then { cfgPlain with last_run := envTrue.timestamp } else cfgPlain) :=
  ⟨⟨rfl, rfl,
    last_run_monotone_without_register.1 [Op.execute envTrue 7] store2 7
      cfgPlain { cfgPlain with last_run := 100 }
      (by
        intro op hop
        rw [List.mem_singleton] at hop
        subst hop
        rfl)
      (by
        intro k h
        match k, h with
        | 0, _ =>
            intro c hc
            have h2 : some cfgPlain = some c := hc
            injection h2 with h3
            subst h3
            decide
        | n + 1, h => exact absurd h (by simp))
      rfl rfl⟩,
   last_run_monotone_without_register.2 envTrue store2 7 cfgPlain rfl⟩

/-- C5 counterexample: with the task present at id 7 (gate-free) and a
panicking target invocation, `execute` surfaces an error to the caller,
so presence of the task does not imply error-free return. -/
theorem execute_errors_with_task_present :
    store2 7 = some cfgPlain ∧
    (execute envInvokeFail store2 7).outcome =
      Except.error ExecError.invocationFailure :=
  ⟨rfl, rfl⟩

/-- C5 amended: `execute` errors exactly when the task id is absent or
the gate passes and the target invocation fails; on an absent id it
always fails with "task not found" and leaves the store unchanged; a
present task whose gate skips, or whose invocation succeeds, returns no
error. -/
theorem execute_error_characterization (env : ExtEnv) (s : Store) (task_id : Nat) :
    ((∃ e, (execute env s task_id).outcome = Except.error e) ↔
      s task_id = none ∨
        ∃ config, s task_id = some config ∧ gateDecision env config = true ∧
          env.invokeOk config.target config.function config.args = false) ∧
    (s task_id = none →
      (execute env s task_id).store = s ∧
      (execute env s task_id).outcome = Except.error ExecError.taskNotFound) := by
  cases hget : s task_id with
  | none =>
      refine ⟨⟨fun _ => Or.inl rfl,
        fun _ => ⟨ExecError.taskNotFound, by simp [execute, hget]⟩⟩,
        fun _ => ⟨by simp [execute, hget], by simp [execute, hget]⟩⟩
  | some config =>
      refine ⟨⟨fun he => ?_, fun hcase => ?_⟩, fun habs => by cases habs⟩
      · cases hgate : gateDecision env config with
        | false =>
            obtain ⟨e, he⟩ := he
            simp [execute, hget, hgate] at he
        | true =>
            cases hinv : env.invokeOk config.target config.function config.args with
            | true =>
                obtain ⟨e, he⟩ := he
                simp [execute, hget, hgate, hinv] at he
            | false => exact Or.inr ⟨config, rfl, hgate, hinv⟩
      · rcases hcase with habs | ⟨config', hget', hgate', hinv'⟩
        · cases habs
        · injection hget' with hcc
          subst hcc
          exact ⟨ExecError.invocationFailure, by simp [execute, hget, hgate', hinv']⟩

/-- C5 amended witness: id 9 is absent from the store, so `execute`
fails with "task not found" and the store is unchanged. -/
theorem execute_error_characterization_witness :
    store2 9 = none ∧
      ((execute envTrue store2 9).store = store2 ∧
        (execute envTrue store2 9).outcome = Except.error ExecError.taskNotFound) :=
  ⟨rfl, (execute_error_characterization envTrue store2 9).2 rfl⟩

/-- C6: when the task's resolver is absent, `execute` always reaches the
invoke step — the gate proceeds unconditionally with no resolver call. -/
theorem execute_no_resolver_reaches_invoke (env : ExtEnv) (s : Store)
    (task_id : Nat) (config : TaskConfig) (hget : s task_id = some config)
    (hres : config.resolver = none) :
    reachesInvoke (execute env s task_id) = true ∧
    gateDecision env config = true ∧
    (execute env s task_id).events.filter CallEvent.isResolverCheck = [] := by
  have hg : gateDecision env config = true := by
    unfold gateDecision
    rw [hres]
  refine ⟨?_, hg, ?_⟩ <;>
    cases hinv : env.invokeOk config.target config.function config.args <;>
      simp [reachesInvoke, execute, hget, hg, hinv, gateTrace, hres,
        CallEvent.isInvoke, CallEvent.isResolverCheck]

/-- C6 witness: gate-free task at id 7 reaches the invoke step. -/
theorem execute_no_resolver_reaches_invoke_witness :
    (store2 7 = some cfgPlain ∧ cfgPlain.resolver = none) ∧
    reachesInvoke (execute envFalse store2 7) = true :=
  ⟨⟨rfl, rfl⟩, (execute_no_resolver_reaches_invoke envFalse store2 7 cfgPlain rfl rfl).1⟩

/-- C7: when a resolver is present, the attempt's trace holds exactly one
resolver call, to `check_condition`, whose argument vector has length one
and whose single element is the task's entire `args` sequence packed as
one collection value. -/
theorem execute_resolver_call_shape (env : ExtEnv) (s : Store) (task_id : Nat)
    (config : TaskConfig) (ra : Nat)
    (hget : s task_id = some config) (hres : config.resolver = some ra) :
    (execute env s task_id).events.filter CallEvent.isResolverCheck =
      [CallEvent.resolverCheck ra "check_condition" (resolverCallArgs config)] ∧
    (resolverCallArgs config).length = 1 ∧
    resolverCallArgs config = [Val.vec config.args] := by
  refine ⟨?_, rfl, rfl⟩
  cases hgate : gateDecision env config with
  | false =>
      simp [execute, hget, hgate, gateTrace, hres, CallEvent.isResolverCheck]
  | true =>
      cases hinv : env.invokeOk config.target config.function config.args <;>
        simp [execute, hget, hgate, hinv, gateTrace, hres, CallEvent.isResolverCheck]

/-- C7 witness: resolver-gated task at id 7: the trace holds exactly the
one packed `check_condition` call. -/
theorem execute_resolver_call_shape_witness :
    (store1 7 = some cfgResolver ∧ cfgResolver.resolver = some 9) ∧
    ((execute envFalse store1 7).events.filter CallEvent.isResolverCheck =
        [CallEvent.resolverCheck 9 "check_condition" (resolverCallArgs cfgResolver)] ∧
      (resolverCallArgs cfgResolver).length = 1 ∧
      resolverCallArgs cfgResolver = [Val.vec cfgResolver.args]) :=
  ⟨⟨rfl, rfl⟩, execute_resolver_call_shape envFalse store1 7 cfgResolver 9 rfl rfl⟩

/-- C8: `register` is an unconditional upsert and `get_task` returns
exactly the last value passed to `register` for that id, whatever was
stored before — no merging with a previous record. -/
theorem register_get_task_last_write (s : Store) (task_id : Nat)
    (c0 c : TaskConfig) :
    get_task (register s task_id c) task_id = some c ∧
    get_task (register (register s task_id c0) task_id c) task_id = some c := by
  constructor <;> simp [get_task, register, Store.set]

/-- C9: `execute` reads and writes only the record at `task_id`: every
other key is unchanged in every outcome, and the caller-visible outcome
and call trace depend only on the record stored at `task_id`. -/
theorem execute_frame (env : ExtEnv) (s t : Store) (task_id : Nat) :
    (∀ j, j ≠ task_id → (execute env s task_id).store j = s j) ∧
    (s task_id = t task_id →
      (execute env s task_id).outcome = (execute env t task_id).outcome ∧
      (execute env s task_id).events = (execute env t task_id).events) := by
  refine ⟨fun j hj => execute_store_frame env s task_id j hj, fun hagree => ?_⟩
  unfold execute
  rw [hagree]
  cases t task_id with
  | none => exact ⟨rfl, rfl⟩
  | some config =>
      cases hgate : gateDecision env config with
      | false => simp [hgate]
      | true =>
          cases hinv : env.invokeOk config.target config.function config.args <;>
            simp [hgate, hinv]

/-- C9 witness: executing id 7 leaves the record at id 3 unchanged. -/
theorem execute_frame_witness :
    (3 : Nat) ≠ 7 ∧ (execute envTrue store2 7).store 3 = store2 3 :=
  ⟨by decide, (execute_frame envTrue store2 store2 7).1 3 (by decide)⟩

/-- C10: `register` validates and authorizes nothing: any config is
stored verbatim over any prior record, in particular one whose
`last_run` is strictly smaller than the stored record's. -/
theorem register_no_validation (s : Store) (task_id : Nat)
    (c0 c : TaskConfig) (_hlt : c.last_run < c0.last_run) :
    get_task (register (register s task_id c0) task_id c) task_id = some c := by
  simp [get_task, register, Store.set]

/-- C10 witness: re-registering id 7 lowers `last_run` from 5 to 3. -/
theorem register_no_validation_witness :
    cfgLow.last_run < cfgHigh.last_run ∧
      get_task (register (register store1 7 cfgHigh) 7 cfgLow) 7 = some cfgLow :=
  ⟨by decide, register_no_validation store1 7 cfgHigh cfgLow (by decide)⟩

end SoroTask
